import Mathlib

/-!
# app-builder Go SDK: response decoding and the two answer iterators

A shallow embedding of `go/appbuilder/app_builder_client_data.go`:

* the content-type registry `TypeToStruct` and the payload structs it names,
* `AppBuilderClientAnswer.transform` (raw response to answer),
* `AppBuilderClientStreamIterator.Next` and `AppBuilderClientOnceIterator.Next`.

Go `string` and `[]byte` are byte sequences.  Pointer receivers become explicit
state passing: a method returns its result paired with the receiver afterwards.
The standard library (`encoding/json`, `io`, `fmt`, `strings`, `reflect`) is not
part of the file: `json.Unmarshal` is a parameter (`Json`), the others are
transcribed from their documented behaviour.
-/

set_option linter.dupNamespace false

namespace AppBuilder

/-! ## Go base types -/

/-- Go `[]byte`. -/
abbrev Bytes := List UInt8

/-- Go `string`: an immutable sequence of bytes. -/
abbrev GoString := List UInt8

/-- The bytes of a Go string literal (UTF-8 encoded source text). -/
def str (s : String) : GoString := s.data.flatMap String.utf8EncodeChar

/-- Go `error` values: the sentinel `io.EOF`, or any other error value, carried
with the text its `Error()` method returns. -/
inductive GoError where
  | EOF
  | other (text : GoString)
  deriving DecidableEq, Repr

/-- The `Error()` method. -/
def GoError.Error : GoError → GoString
  | .EOF => str "EOF"
  | .other text => text

/-- Values held by a Go `any` after JSON decoding. A float64 is carried as its
64 bit pattern. -/
inductive GoAny where
  | nil
  | bool (b : Bool)
  | float64 (bits : Nat)
  | string (s : GoString)
  | slice (xs : List GoAny)
  | map (kvs : List (GoString × GoAny))

/-- Go `strings.HasPrefix`: `len(s) >= len(prefix) && s[:len(prefix)] == prefix`. -/
def HasPrefix (s p : GoString) : Bool :=
  decide (p.length ≤ s.length) && (s.take p.length == p)

/-- Go slice expression `data[k:]`; `none` is the run-time panic
"slice bounds out of range", raised when `k > len(data)`. -/
def sliceFrom (data : Bytes) (k : Nat) : Option Bytes :=
  if k ≤ data.length then some (data.drop k) else none

/-- Go `fmt.Errorf("requestID=%s, err=%v", requestID, err)`. -/
def errorfErr (requestID : GoString) (err : GoError) : GoError :=
  .other (str "requestID=" ++ requestID ++ str ", err=" ++ err.Error)

/-- Go `fmt.Errorf("requestID=%s, body=%s", requestID, string(data))`. -/
def errorfBody (requestID : GoString) (data : Bytes) : GoError :=
  .other (str "requestID=" ++ requestID ++ str ", body=" ++ data)

/-! ## Content types and payload structs -/

def CodeContentType : GoString := str "code"
def TextContentType : GoString := str "text"
def ImageContentType : GoString := str "image"
def RAGContentType : GoString := str "rag"
def FunctionCallContentType : GoString := str "function_call"
def AudioContentType : GoString := str "audio"
def VideoContentType : GoString := str "video"
def StatusContentType : GoString := str "status"
def ChatflowInterruptContentType : GoString := str "chatflow_interrupt"
def PublishMessageContentType : GoString := str "publish_message"
def JsonContentType : GoString := str "json"
def ChatReasoningContentType : GoString := str "chat_reasoning"

structure Usage where
  PromptTokens : Int := 0
  CompletionTokens : Int := 0
  TotalTokens : Int := 0
  Name : GoString := []

structure FunctionCallOption where
  Name : GoString := []
  Arguments : List (GoString × GoAny) := []

/-- The field written here as Type_ is the Go field Type. -/
structure ToolCall where
  ID : GoString := []
  Type_ : GoString := []
  Function : FunctionCallOption := {}

structure TextDetail where
  Text : GoString := []

structure CodeDetail where
  Text : GoString := []
  Code : GoString := []
  Files : List GoString := []

structure Reference where
  ID : GoString := []
  From : GoString := []
  URL : GoString := []
  Content : GoString := []
  SegmentID : GoString := []
  DocumentID : GoString := []
  DatasetID : GoString := []
  DocumentName : GoString := []
  KnowledgeBaseID : GoString := []

structure RAGDetail where
  Text : GoString := []
  References : List Reference := []

structure FunctionCallDetail where
  Text : GoAny := .nil
  Image : GoString := []
  Audio : GoString := []
  Video : GoString := []

structure ImageDetail where
  Image : GoString := []

structure AudioDetail where
  Audio : GoString := []

structure VideoDetail where
  Video : GoString := []

structure StatusDetail where

structure ChatflowInterruptDetail where
  InterruptEventID : GoString := []
  InterruptEventType : GoString := []

structure PublishMessageDetail where
  Message : GoString := []
  MessageID : GoString := []

structure ChatReasoningDetail where
  Text : GoString := []

structure FollowUpQueries where
  FollowUpQueries : List GoString := []

structure JsonDetail where
  Json : FollowUpQueries := {}

structure DefaultDetail where
  Text : GoString := []
  URLS : List GoString := []
  Files : List GoString := []
  Image : GoString := []
  Video : GoString := []
  Audio : GoString := []

/-- The `reflect.Type` values the file uses: one per payload struct. -/
inductive ReflectType where
  | CodeDetail
  | TextDetail
  | ImageDetail
  | RAGDetail
  | FunctionCallDetail
  | AudioDetail
  | VideoDetail
  | StatusDetail
  | ChatflowInterruptDetail
  | PublishMessageDetail
  | JsonDetail
  | ChatReasoningDetail
  | DefaultDetail
  deriving DecidableEq, Repr

/-- The Go struct type a `reflect.Type` stands for. -/
def ReflectType.Carrier : ReflectType → Type
  | .CodeDetail => AppBuilder.CodeDetail
  | .TextDetail => AppBuilder.TextDetail
  | .ImageDetail => AppBuilder.ImageDetail
  | .RAGDetail => AppBuilder.RAGDetail
  | .FunctionCallDetail => AppBuilder.FunctionCallDetail
  | .AudioDetail => AppBuilder.AudioDetail
  | .VideoDetail => AppBuilder.VideoDetail
  | .StatusDetail => AppBuilder.StatusDetail
  | .ChatflowInterruptDetail => AppBuilder.ChatflowInterruptDetail
  | .PublishMessageDetail => AppBuilder.PublishMessageDetail
  | .JsonDetail => AppBuilder.JsonDetail
  | .ChatReasoningDetail => AppBuilder.ChatReasoningDetail
  | .DefaultDetail => AppBuilder.DefaultDetail

/-- Go `reflect.New(tp)`: a pointer to a new zero value of `tp`; here the zero
value itself. -/
def reflectNew : (tp : ReflectType) → tp.Carrier
  | .CodeDetail => ({} : AppBuilder.CodeDetail)
  | .TextDetail => ({} : AppBuilder.TextDetail)
  | .ImageDetail => ({} : AppBuilder.ImageDetail)
  | .RAGDetail => ({} : AppBuilder.RAGDetail)
  | .FunctionCallDetail => ({} : AppBuilder.FunctionCallDetail)
  | .AudioDetail => ({} : AppBuilder.AudioDetail)
  | .VideoDetail => ({} : AppBuilder.VideoDetail)
  | .StatusDetail => ({} : AppBuilder.StatusDetail)
  | .ChatflowInterruptDetail => ({} : AppBuilder.ChatflowInterruptDetail)
  | .PublishMessageDetail => ({} : AppBuilder.PublishMessageDetail)
  | .JsonDetail => ({} : AppBuilder.JsonDetail)
  | .ChatReasoningDetail => ({} : AppBuilder.ChatReasoningDetail)
  | .DefaultDetail => ({} : AppBuilder.DefaultDetail)

/-- The map `TypeToStruct`, as its key/value entries (the keys are distinct). -/
def TypeToStruct : List (GoString × ReflectType) :=
  [ (CodeContentType, .CodeDetail),
    (TextContentType, .TextDetail),
    (ImageContentType, .ImageDetail),
    (RAGContentType, .RAGDetail),
    (FunctionCallContentType, .FunctionCallDetail),
    (AudioContentType, .AudioDetail),
    (VideoContentType, .VideoDetail),
    (StatusContentType, .StatusDetail),
    (ChatflowInterruptContentType, .ChatflowInterruptDetail),
    (PublishMessageContentType, .PublishMessageDetail),
    (JsonContentType, .JsonDetail),
    (ChatReasoningContentType, .ChatReasoningDetail) ]

/-- Go map index `m[key]` in its two-result form: the value when the key is
present (`ok`), `none` otherwise. -/
def mapIndex (m : List (GoString × ReflectType)) (key : GoString) : Option ReflectType :=
  m.lookup key

/-! ## Wire records, events, answers -/

structure RawEventDetail where
  EventCode : Int := 0
  EventMessage : GoString := []
  EventType : GoString := []
  EventID : GoString := []
  EventStatus : GoString := []
  ContentType : GoString := []
  Outputs : Bytes := []
  Usage : Usage := {}
  ToolCalls : List ToolCall := []

/-- The dynamic values the field `Event.Detail` (Go `any`) takes in this file:
the raw `json.RawMessage`, or a value of one of the payload structs. -/
inductive Detail where
  | RawMessage (outputs : Bytes)
  | Struct (tp : ReflectType) (value : tp.Carrier)

/-- The struct type of a `Detail`; `none` for raw payload bytes. -/
def Detail.structType : Detail → Option ReflectType
  | .RawMessage _ => none
  | .Struct tp _ => some tp

structure Event where
  Code : Int := 0
  Message : GoString := []
  Status : GoString := []
  EventType : GoString := []
  ContentType : GoString := []
  Usage : Usage := {}
  Detail : Detail := .RawMessage []
  ToolCalls : List ToolCall := []

structure AppBuilderClientRawResponse where
  RequestID : GoString := []
  Date : GoString := []
  Answer : GoString := []
  ConversationID : GoString := []
  MessageID : GoString := []
  IsCompletion : Bool := false
  Content : List RawEventDetail := []
  Code : GoString := []
  Message : GoString := []

structure AppBuilderClientAnswer where
  MessageID : GoString := []
  Answer : GoString := []
  Events : List Event := []
  Code : GoString := []
  Message : GoString := []
  RequestID : GoString := []

/-- The two uses of `json.Unmarshal(data, ptr)` in the file. Each takes the
bytes and the value behind the pointer, and gives the value afterwards and the
returned error (`none` is a nil error). -/
structure Json where
  UnmarshalResponse :
    Bytes → AppBuilderClientRawResponse → AppBuilderClientRawResponse × Option GoError
  UnmarshalDetail : (tp : ReflectType) → Bytes → tp.Carrier → tp.Carrier × Option GoError

/-- The type the loop of `transform` resolves for a content type:
`tp, ok := TypeToStruct[contentType]; if !ok { tp = reflect.TypeOf(DefaultDetail{}) }`. -/
def resolvedType (contentType : GoString) : ReflectType :=
  match mapIndex TypeToStruct contentType with
  | some tp => tp
  | none => .DefaultDetail

/-- The body of the loop of `transform`: the event built for one record. -/
def transformRecord (J : Json) (c : RawEventDetail) : Event :=
  let ev : Event :=
    { Code := c.EventCode,
      Message := c.EventMessage,
      Status := c.EventStatus,
      EventType := c.EventType,
      ContentType := c.ContentType,
      Usage := c.Usage,
      Detail := .RawMessage c.Outputs,
      ToolCalls := c.ToolCalls }
  let tp : ReflectType := resolvedType ev.ContentType
  let v := reflectNew tp
  let v := (J.UnmarshalDetail tp c.Outputs v).1
  { ev with Detail := .Struct tp v }

/-- The method `(t *AppBuilderClientAnswer) transform(inp)`: the receiver after
the call. -/
def AppBuilderClientAnswer.transform (J : Json) (t : AppBuilderClientAnswer)
    (inp : AppBuilderClientRawResponse) : AppBuilderClientAnswer :=
  let t := { t with Answer := inp.Answer }
  let t := { t with MessageID := inp.MessageID }
  let t := { t with Code := inp.Code }
  let t := { t with Message := inp.Message }
  let t := { t with RequestID := inp.RequestID }
  inp.Content.foldl (fun t c => { t with Events := t.Events ++ [transformRecord J c] }) t

/-! ## Iterators -/

/-- An `io.ReadCloser` body: the outcomes its coming `io.ReadAll` calls will
give, and how many times it has been read and closed so far. -/
structure ReadCloser where
  pending : List (Bytes × Option GoError) := []
  readCalls : Nat := 0
  closeCalls : Nat := 0

/-- The method `Close()`. -/
def ReadCloser.Close (b : ReadCloser) : ReadCloser :=
  { b with closeCalls := b.closeCalls + 1 }

/-- Go `io.ReadAll(body)`: data and error, and the body afterwards. A drained
body gives no bytes and a nil error. -/
def ioReadAll (b : ReadCloser) : (Bytes × Option GoError) × ReadCloser :=
  match b.pending with
  | [] => (([], none), { b with readCalls := b.readCalls + 1 })
  | o :: rest => (o, { b with pending := rest, readCalls := b.readCalls + 1 })

/-- Modelled from the spec: the line source `sseReader` (its declaration and
`ReadMessageLine` are not in this file), "read next line or end-of-input or
error". Its state is the list of outcomes its coming calls give, each a line
with a nil error or an error; with none left it signals end-of-input. -/
structure sseReader where
  pending : List (Bytes × Option GoError) := []

/-- Modelled from the spec: `ReadMessageLine()` of the line source, which gives
the next line or signals end-of-input (`io.EOF`) or another failure. -/
def sseReader.ReadMessageLine (r : sseReader) : (Bytes × Option GoError) × sseReader :=
  match r.pending with
  | [] => (([], some .EOF), r)
  | o :: rest => (o, { pending := rest })

/-- What a call of `Next` does: it returns `(answer, err)`, or the goroutine
panics. -/
inductive NextResult where
  | returned (answer : Option AppBuilderClientAnswer) (err : Option GoError)
  | panicked

structure AppBuilderClientStreamIterator where
  requestID : GoString
  r : sseReader
  body : ReadCloser

/-- The method `(t *AppBuilderClientStreamIterator) Next()`: the result and the
iterator afterwards. -/
def AppBuilderClientStreamIterator.Next (J : Json) (t : AppBuilderClientStreamIterator) :
    NextResult × AppBuilderClientStreamIterator :=
  let (data, err) := t.r.ReadMessageLine.1
  let t := { t with r := t.r.ReadMessageLine.2 }
  if err.isSome && !(err == some GoError.EOF) then
    let t := { t with body := t.body.Close }
    (.returned none (some (errorfErr t.requestID (err.getD .EOF))), t)
  else if err.isSome && err == some GoError.EOF then
    let t := { t with body := t.body.Close }
    (.returned none err, t)
  else if HasPrefix data (str "data:") then
    match sliceFrom data 5 with
    | none => (.panicked, t)
    | some rest =>
      let (resp, uerr) := J.UnmarshalResponse rest {}
      match uerr with
      | some e =>
        let t := { t with body := t.body.Close }
        (.returned none (some (errorfErr t.requestID e)), t)
      | none =>
        let answer : AppBuilderClientAnswer := {}
        let answer := answer.transform J resp
        (.returned (some answer) none, t)
  else
    let t := { t with body := t.body.Close }
    (.returned none (some (errorfBody t.requestID data)), t)

structure AppBuilderClientOnceIterator where
  body : ReadCloser
  requestID : GoString

/-- The method `(t *AppBuilderClientOnceIterator) Next()`: the result and the
iterator afterwards. The deferred `t.body.Close()` is registered after the
read-error return, and runs on the two later returns. -/
def AppBuilderClientOnceIterator.Next (J : Json) (t : AppBuilderClientOnceIterator) :
    NextResult × AppBuilderClientOnceIterator :=
  let (data, err) := (ioReadAll t.body).1
  let t := { t with body := (ioReadAll t.body).2 }
  match err with
  | some e => (.returned none (some (errorfErr t.requestID e)), t)
  | none =>
    let (resp, uerr) := J.UnmarshalResponse data {}
    match uerr with
    | some e =>
      (.returned none (some (errorfErr t.requestID e)), { t with body := t.body.Close })
    | none =>
      let answer : AppBuilderClientAnswer := {}
      let answer := answer.transform J resp
      (.returned (some answer) none, { t with body := t.body.Close })

/-- The results of `k` successive calls of the stream iterator's `Next`, in call
order, and the iterator after them. -/
def streamCalls (J : Json) : Nat → AppBuilderClientStreamIterator →
    List NextResult × AppBuilderClientStreamIterator
  | 0, t => ([], t)
  | k + 1, t =>
    let (res, t1) := t.Next J
    let (rest, t2) := streamCalls J k t1
    (res :: rest, t2)

/-- The results of `k` successive calls of the once iterator's `Next`, in call
order, and the iterator after them. -/
def onceCalls (J : Json) : Nat → AppBuilderClientOnceIterator →
    List NextResult × AppBuilderClientOnceIterator
  | 0, t => ([], t)
  | k + 1, t =>
    let (res, t1) := t.Next J
    let (rest, t2) := onceCalls J k t1
    (res :: rest, t2)

/-- A `json.Unmarshal` for worked examples: it decodes exactly the response
texts listed in `table`, and rejects every other text (the empty one too),
leaving the target as it was. -/
def tableJson (table : List (Bytes × AppBuilderClientRawResponse)) : Json where
  UnmarshalResponse := fun data v =>
    match table.lookup data with
    | some resp => (resp, none)
    | none => (v, some (.other (str "unexpected end of JSON input")))
  UnmarshalDetail := fun _ _ v => (v, some (.other (str "unexpected end of JSON input")))

/-- The twelve content-type tags of `TypeToStruct`. -/
def registeredTags : List GoString := TypeToStruct.map Prod.fst

/-- A record with an unregistered content type and an empty payload, for worked
examples. -/
def exampleRecord : RawEventDetail :=
  { EventCode := 7, EventMessage := str "second", EventStatus := str "done",
    EventType := str "FollowUpQuery", ContentType := str "Text",
    Usage := { TotalTokens := 3 } }

/-- A raw response with two records, for worked examples. -/
def exampleResponse : AppBuilderClientRawResponse :=
  { RequestID := str "r1", Answer := str "hi", MessageID := str "m1",
    Content :=
      [ { EventCode := 0, EventMessage := str "first", EventStatus := str "running",
          EventType := str "chatflow", ContentType := str "text" },
        exampleRecord ] }

/-! ## Derived definitions used in the statements -/

/-- The answer the stream iterator assembles from a "data:" line. -/
def lineAnswer (J : Json) (line : Bytes) : NextResult :=
  .returned (some (AppBuilderClientAnswer.transform J {}
    (J.UnmarshalResponse (line.drop 5) {}).1)) none

/-- Whether an outcome of the line source is a line that `Next` turns into an
answer: a nil error, the "data:" tag, and a remainder that deserializes. -/
def isAnswerLine (J : Json) (o : Bytes × Option GoError) : Bool :=
  o.2.isNone && HasPrefix o.1 (str "data:") && (J.UnmarshalResponse (o.1.drop 5) {}).2.isNone

/-- The result of the stream iterator's `Next` as a function of the outcome the
line source gave. -/
def streamResult (J : Json) (requestID : GoString) : Bytes × Option GoError → NextResult
  | (_, some .EOF) => .returned none (some .EOF)
  | (_, some (.other text)) => .returned none (some (errorfErr requestID (.other text)))
  | (data, none) =>
    if HasPrefix data (str "data:") then
      match (J.UnmarshalResponse (data.drop 5) {}).2 with
      | some e => .returned none (some (errorfErr requestID e))
      | none => lineAnswer J data
    else .returned none (some (errorfBody requestID data))

/-- A stream whose line source holds a line without the "data:" tag and then a
well-formed "data:" line. -/
def exampleStream : AppBuilderClientStreamIterator :=
  { requestID := str "r1",
    r := { pending := [(str "internal error", none), (str "data:\x7b\x7d", none)] },
    body := {} }

/-- A once iterator whose body fails while it is read. -/
def exampleFailingOnce : AppBuilderClientOnceIterator :=
  { body := { pending := [([], some (.other (str "unexpected EOF")))] }, requestID := str "r2" }

/-- Whether an outcome of reading the body is one the once iterator turns into
an answer: a nil error and bytes that deserialize. -/
def isAnswerBody (J : Json) (o : Bytes × Option GoError) : Bool :=
  o.2.isNone && (J.UnmarshalResponse o.1 {}).2.isNone

/-- The result of the once iterator's `Next` as a function of the outcome of
reading the body. -/
def onceResult (J : Json) (requestID : GoString) : Bytes × Option GoError → NextResult
  | (_, some e) => .returned none (some (errorfErr requestID e))
  | (data, none) =>
    match (J.UnmarshalResponse data {}).2 with
    | some e => .returned none (some (errorfErr requestID e))
    | none => .returned (some (AppBuilderClientAnswer.transform J {}
        (J.UnmarshalResponse data {}).1)) none

/-- The body of the worked example of the once iterator. -/
def witnessBody : Bytes :=
  str "\x7b\"request_id\":\"r1\",\"answer\":\"hi\",\"message_id\":\"m1\",\"content\":[]\x7d"

/-- The raw response `witnessBody` deserializes to. -/
def witnessResponse : AppBuilderClientRawResponse :=
  { RequestID := str "r1", Answer := str "hi", MessageID := str "m1", Content := [] }

/-- A once iterator over `witnessBody`. -/
def witnessOnce : AppBuilderClientOnceIterator :=
  { body := { pending := [(witnessBody, none)] }, requestID := str "r1" }

/-! ## Theorems: `transform` -/

theorem transform_foldl (J : Json) (cs : List RawEventDetail) (t : AppBuilderClientAnswer) :
    cs.foldl (fun t c => { t with Events := t.Events ++ [transformRecord J c] }) t =
      { t with Events := t.Events ++ cs.map (transformRecord J) } := by
  induction cs generalizing t with
  | nil => simp
  | cons c cs ih => simp [List.foldl_cons, ih]

theorem transform_eq (J : Json) (t : AppBuilderClientAnswer)
    (inp : AppBuilderClientRawResponse) :
    t.transform J inp =
      { MessageID := inp.MessageID, Answer := inp.Answer,
        Events := t.Events ++ inp.Content.map (transformRecord J),
        Code := inp.Code, Message := inp.Message, RequestID := inp.RequestID } := by
  simp [AppBuilderClientAnswer.transform, transform_foldl]

theorem transform_fresh_events (J : Json) (inp : AppBuilderClientRawResponse) :
    (AppBuilderClientAnswer.transform J {} inp).Events = inp.Content.map (transformRecord J) := by
  simp [transform_eq]

theorem structType_transformRecord (J : Json) (c : RawEventDetail) :
    (transformRecord J c).Detail.structType = some (resolvedType c.ContentType) := rfl

theorem resolvedType_unregistered (tag : GoString) (h : tag ∉ registeredTags) :
    resolvedType tag = .DefaultDetail := by
  have hnone : mapIndex TypeToStruct tag = none := by
    unfold mapIndex
    rw [List.lookup_eq_none_iff]
    intro p hp
    have hne : tag ≠ p.1 := fun heq => h (heq ▸ List.mem_map_of_mem Prod.fst hp)
    simpa using hne
  simp [resolvedType, hnone]

theorem transform_event_at (J : Json) (inp : AppBuilderClientRawResponse) (i : Nat)
    (c : RawEventDetail) (h : inp.Content[i]? = some c) :
    (AppBuilderClientAnswer.transform J {} inp).Events[i]? = some (transformRecord J c) := by
  rw [transform_fresh_events, List.getElem?_map, h]
  rfl

/-- C1: applied to a fresh answer, transform produces exactly one event per
record of the content list, and the event at each position carries the Code,
Message, Status, EventType, ContentType, Usage and ToolCalls of the record at
that position. -/
theorem transform_one_event_per_record (J : Json) (inp : AppBuilderClientRawResponse) :
    (AppBuilderClientAnswer.transform J {} inp).Events.length = inp.Content.length ∧
    ∀ (i : Nat) (c : RawEventDetail), inp.Content[i]? = some c →
      ∃ ev, (AppBuilderClientAnswer.transform J {} inp).Events[i]? = some ev ∧
        ev.Code = c.EventCode ∧ ev.Message = c.EventMessage ∧ ev.Status = c.EventStatus ∧
        ev.EventType = c.EventType ∧ ev.ContentType = c.ContentType ∧
        ev.Usage = c.Usage ∧ ev.ToolCalls = c.ToolCalls := by
  refine ⟨by simp [transform_fresh_events], ?_⟩
  intro i c h
  exact ⟨transformRecord J c, transform_event_at J inp i c h, rfl, rfl, rfl, rfl, rfl, rfl, rfl⟩

/-- Worked instance on `exampleResponse`: two records give two events, and the second
event carries the fields of the second record. -/
theorem transform_one_event_per_record_witness :
    exampleResponse.Content[1]? = some exampleRecord ∧
    (AppBuilderClientAnswer.transform (tableJson []) {} exampleResponse).Events.length = 2 ∧
    ∃ ev, (AppBuilderClientAnswer.transform (tableJson []) {} exampleResponse).Events[1]?
        = some ev ∧
      ev.Code = exampleRecord.EventCode ∧ ev.Message = exampleRecord.EventMessage ∧
      ev.Status = exampleRecord.EventStatus ∧ ev.EventType = exampleRecord.EventType ∧
      ev.ContentType = exampleRecord.ContentType ∧ ev.Usage = exampleRecord.Usage ∧
      ev.ToolCalls = exampleRecord.ToolCalls :=
  ⟨rfl, (transform_one_event_per_record (tableJson []) exampleResponse).1,
    (transform_one_event_per_record (tableJson []) exampleResponse).2 1 exampleRecord rfl⟩

/-- C10: transform copies the scalar fields Answer, MessageID, Code, Message and
RequestID of the raw response into the answer, for every receiver, every content
list and every behaviour of the payload decoder. -/
theorem transform_copies_scalars (J : Json) (t : AppBuilderClientAnswer)
    (inp : AppBuilderClientRawResponse) :
    (t.transform J inp).Answer = inp.Answer ∧
    (t.transform J inp).MessageID = inp.MessageID ∧
    (t.transform J inp).Code = inp.Code ∧
    (t.transform J inp).Message = inp.Message ∧
    (t.transform J inp).RequestID = inp.RequestID := by
  simp [transform_eq]

/-- C2: the Detail of the event transform builds for a record is a struct of the
type the registry gives the record's content type: each of the twelve registered
tags gives its own struct, every other tag (the empty tag and "Text" included)
gives DefaultDetail, and Detail is never the raw payload bytes. -/
theorem transform_detail_shape (J : Json) (inp : AppBuilderClientRawResponse) (i : Nat)
    (c : RawEventDetail) (h : inp.Content[i]? = some c) :
    ∃ ev, (AppBuilderClientAnswer.transform J {} inp).Events[i]? = some ev ∧
      (c.ContentType = str "code" → ev.Detail.structType = some .CodeDetail) ∧
      (c.ContentType = str "text" → ev.Detail.structType = some .TextDetail) ∧
      (c.ContentType = str "image" → ev.Detail.structType = some .ImageDetail) ∧
      (c.ContentType = str "rag" → ev.Detail.structType = some .RAGDetail) ∧
      (c.ContentType = str "function_call" →
        ev.Detail.structType = some .FunctionCallDetail) ∧
      (c.ContentType = str "audio" → ev.Detail.structType = some .AudioDetail) ∧
      (c.ContentType = str "video" → ev.Detail.structType = some .VideoDetail) ∧
      (c.ContentType = str "status" → ev.Detail.structType = some .StatusDetail) ∧
      (c.ContentType = str "chatflow_interrupt" →
        ev.Detail.structType = some .ChatflowInterruptDetail) ∧
      (c.ContentType = str "publish_message" →
        ev.Detail.structType = some .PublishMessageDetail) ∧
      (c.ContentType = str "json" → ev.Detail.structType = some .JsonDetail) ∧
      (c.ContentType = str "chat_reasoning" →
        ev.Detail.structType = some .ChatReasoningDetail) ∧
      (c.ContentType ∉
          [str "code", str "text", str "image", str "rag", str "function_call",
            str "audio", str "video", str "status", str "chatflow_interrupt",
            str "publish_message", str "json", str "chat_reasoning"] →
        ev.Detail.structType = some .DefaultDetail) ∧
      (c.ContentType = str "" → ev.Detail.structType = some .DefaultDetail) ∧
      (c.ContentType = str "Text" → ev.Detail.structType = some .DefaultDetail) ∧
      ∀ outputs, ev.Detail ≠ .RawMessage outputs := by
  refine ⟨transformRecord J c, transform_event_at J inp i c h, ?_⟩
  rw [structType_transformRecord]
  refine ⟨?_, ?_, ?_, ?_, ?_, ?_, ?_, ?_, ?_, ?_, ?_, ?_, ?_, ?_, ?_, ?_⟩
  case refine_13 => intro hc; rw [resolvedType_unregistered _ hc]
  case refine_16 => intro outputs hraw; simp [transformRecord] at hraw
  all_goals
    intro hc
    rw [hc]
    rfl

/-- Worked instance: the tag "Text" is not a key of the registry, so the event gets a
DefaultDetail. -/
theorem transform_detail_shape_witness :
    exampleResponse.Content[1]? = some exampleRecord ∧
    exampleRecord.ContentType = str "Text" ∧
    ∃ ev, (AppBuilderClientAnswer.transform (tableJson []) {} exampleResponse).Events[1]?
        = some ev ∧
      ev.Detail.structType = some .DefaultDetail := by
  obtain ⟨ev, hev, hshape⟩ :=
    transform_detail_shape (tableJson []) exampleResponse 1 exampleRecord rfl
  exact ⟨rfl, rfl, ev, hev, hshape.2.2.2.2.2.2.2.2.2.2.2.2.2.2.1 rfl⟩

/-- C3: when the payload of a record fails to deserialize into the struct
resolved for its content type, transform still emits the event for that record at
its position, with the record's Code, Message and Status and a Detail of the
resolved struct type (the zero value when the decoder left it untouched); the
events at the other positions do not depend on that payload, and the number of
events is unchanged. -/
theorem transform_malformed_payload (J : Json) (inp : AppBuilderClientRawResponse) (i : Nat)
    (c : RawEventDetail) (h : inp.Content[i]? = some c)
    (_hfail : (J.UnmarshalDetail (resolvedType c.ContentType) c.Outputs
      (reflectNew (resolvedType c.ContentType))).2 ≠ none) :
    (∃ ev, (AppBuilderClientAnswer.transform J {} inp).Events[i]? = some ev ∧
      ev.Code = c.EventCode ∧ ev.Message = c.EventMessage ∧ ev.Status = c.EventStatus ∧
      ev.Detail.structType = some (resolvedType c.ContentType) ∧
      ((J.UnmarshalDetail (resolvedType c.ContentType) c.Outputs
          (reflectNew (resolvedType c.ContentType))).1
          = reflectNew (resolvedType c.ContentType) →
        ev.Detail = .Struct (resolvedType c.ContentType)
          (reflectNew (resolvedType c.ContentType)))) ∧
    ∀ outputs : Bytes,
      (AppBuilderClientAnswer.transform J {}
        { inp with Content := inp.Content.set i { c with Outputs := outputs } }).Events.length
        = (AppBuilderClientAnswer.transform J {} inp).Events.length ∧
      ∀ j : Nat, j ≠ i →
        (AppBuilderClientAnswer.transform J {}
          { inp with Content := inp.Content.set i { c with Outputs := outputs } }).Events[j]?
          = (AppBuilderClientAnswer.transform J {} inp).Events[j]? := by
  refine ⟨⟨transformRecord J c, transform_event_at J inp i c h, rfl, rfl, rfl, rfl, ?_⟩, ?_⟩
  · intro hzero
    simp only [transformRecord]
    rw [hzero]
  · intro outputs
    refine ⟨by simp [transform_fresh_events], ?_⟩
    intro j hj
    simp only [transform_fresh_events, List.getElem?_map]
    rw [List.getElem?_set_ne (Ne.symm hj)]

/-- Worked instance: the empty payload of `exampleRecord` is rejected by the decoder,
and the event is still built, with the zero DefaultDetail. -/
theorem transform_malformed_payload_witness :
    exampleResponse.Content[1]? = some exampleRecord ∧
    ((tableJson []).UnmarshalDetail (resolvedType exampleRecord.ContentType)
      exampleRecord.Outputs (reflectNew (resolvedType exampleRecord.ContentType))).2 ≠ none ∧
    ∃ ev, (AppBuilderClientAnswer.transform (tableJson []) {} exampleResponse).Events[1]?
        = some ev ∧
      ev.Code = 7 ∧ ev.Message = str "second" ∧ ev.Status = str "done" ∧
      ev.Detail = .Struct .DefaultDetail ({} : DefaultDetail) := by
  have hfail : ((tableJson []).UnmarshalDetail (resolvedType exampleRecord.ContentType)
      exampleRecord.Outputs (reflectNew (resolvedType exampleRecord.ContentType))).2 ≠ none := by
    simp [tableJson]
  obtain ⟨ev, hev, hcode, hmsg, hstatus, -, hzero⟩ :=
    (transform_malformed_payload (tableJson []) exampleResponse 1 exampleRecord rfl hfail).1
  exact ⟨rfl, hfail, ev, hev, hcode, hmsg, hstatus, hzero rfl⟩

/-! ## Theorems: the stream iterator -/

theorem HasPrefix_iff (s p : GoString) : HasPrefix s p = true ↔ p <+: s := by
  unfold HasPrefix
  rw [List.prefix_iff_eq_take]
  constructor
  · intro h
    simp only [Bool.and_eq_true, decide_eq_true_eq, beq_iff_eq] at h
    exact h.2.symm
  · intro h
    simp only [Bool.and_eq_true, decide_eq_true_eq, beq_iff_eq]
    refine ⟨?_, h.symm⟩
    have := congrArg List.length h
    simp only [List.length_take] at this
    omega

theorem length_data_tag : (str "data:").length = 5 := by decide

theorem sliceFrom_of_HasPrefix (data : Bytes) (h : HasPrefix data (str "data:") = true) :
    sliceFrom data 5 = some (data.drop 5) := by
  have hlen : 5 ≤ data.length := by
    have := ((HasPrefix_iff data (str "data:")).1 h).length_le
    rwa [length_data_tag] at this
  simp [sliceFrom, hlen]

/-- The line source signalled end-of-input. -/
theorem stream_Next_EOF (J : Json) (t : AppBuilderClientStreamIterator) (data : Bytes)
    (tail : List (Bytes × Option GoError)) (h : t.r.pending = (data, some .EOF) :: tail) :
    t.Next J = (.returned none (some .EOF),
      { t with r := { pending := tail }, body := t.body.Close }) := by
  simp [AppBuilderClientStreamIterator.Next, sseReader.ReadMessageLine, h]

/-- The line source failed with an error that is not `io.EOF`. -/
theorem stream_Next_failure (J : Json) (t : AppBuilderClientStreamIterator) (data : Bytes)
    (text : GoString) (tail : List (Bytes × Option GoError))
    (h : t.r.pending = (data, some (.other text)) :: tail) :
    t.Next J = (.returned none (some (errorfErr t.requestID (.other text))),
      { t with r := { pending := tail }, body := t.body.Close }) := by
  simp [AppBuilderClientStreamIterator.Next, sseReader.ReadMessageLine, h]

/-- The line source has no outcome left: end-of-input. -/
theorem stream_Next_drained (J : Json) (t : AppBuilderClientStreamIterator)
    (h : t.r.pending = []) :
    t.Next J = (.returned none (some .EOF), { t with body := t.body.Close }) := by
  simp [AppBuilderClientStreamIterator.Next, sseReader.ReadMessageLine, h]

/-- A line without the "data:" tag. -/
theorem stream_Next_untagged (J : Json) (t : AppBuilderClientStreamIterator) (line : Bytes)
    (tail : List (Bytes × Option GoError)) (h : t.r.pending = (line, none) :: tail)
    (hp : HasPrefix line (str "data:") = false) :
    t.Next J = (.returned none (some (errorfBody t.requestID line)),
      { t with r := { pending := tail }, body := t.body.Close }) := by
  simp [AppBuilderClientStreamIterator.Next, sseReader.ReadMessageLine, h, hp]

/-- A "data:" line whose remainder deserializes. -/
theorem stream_Next_data (J : Json) (t : AppBuilderClientStreamIterator) (line : Bytes)
    (tail : List (Bytes × Option GoError)) (h : t.r.pending = (line, none) :: tail)
    (hp : HasPrefix line (str "data:") = true)
    (hok : (J.UnmarshalResponse (line.drop 5) {}).2 = none) :
    t.Next J = (.returned (some (AppBuilderClientAnswer.transform J {}
        (J.UnmarshalResponse (line.drop 5) {}).1)) none,
      { t with r := { pending := tail } }) := by
  simp [AppBuilderClientStreamIterator.Next, sseReader.ReadMessageLine, h, hp,
    sliceFrom_of_HasPrefix line hp, hok]

/-- A "data:" line whose remainder does not deserialize. -/
theorem stream_Next_undecodable (J : Json) (t : AppBuilderClientStreamIterator) (line : Bytes)
    (tail : List (Bytes × Option GoError)) (h : t.r.pending = (line, none) :: tail)
    (hp : HasPrefix line (str "data:") = true) (e : GoError)
    (hbad : (J.UnmarshalResponse (line.drop 5) {}).2 = some e) :
    t.Next J = (.returned none (some (errorfErr t.requestID e)),
      { t with r := { pending := tail }, body := t.body.Close }) := by
  simp [AppBuilderClientStreamIterator.Next, sseReader.ReadMessageLine, h, hp,
    sliceFrom_of_HasPrefix line hp, hbad]

theorem streamCalls_add (J : Json) (a b : Nat) (t : AppBuilderClientStreamIterator) :
    streamCalls J (a + b) t =
      ((streamCalls J a t).1 ++ (streamCalls J b (streamCalls J a t).2).1,
        (streamCalls J b (streamCalls J a t).2).2) := by
  induction a generalizing t with
  | zero => simp [streamCalls]
  | succ a ih =>
    have hab : a + 1 + b = (a + b) + 1 := by omega
    rw [hab]
    simp [streamCalls, ih]

theorem streamCalls_one (J : Json) (t : AppBuilderClientStreamIterator) :
    streamCalls J 1 t = ([(t.Next J).1], (t.Next J).2) := by
  simp [streamCalls]

theorem streamCalls_data (J : Json) (lines : List Bytes) :
    ∀ (t : AppBuilderClientStreamIterator) (tail : List (Bytes × Option GoError)),
      t.r.pending = lines.map (fun l => (l, none)) ++ tail →
      (∀ l ∈ lines, str "data:" <+: l ∧ (J.UnmarshalResponse (l.drop 5) {}).2 = none) →
      streamCalls J lines.length t =
        (lines.map (lineAnswer J), { t with r := { pending := tail } }) := by
  induction lines with
  | nil =>
    intro t tail h _
    have : t.r = { pending := tail } := by
      cases hr : t.r
      rw [hr] at h
      simpa using h
    simp [streamCalls, ← this]
  | cons l ls ih =>
    intro t tail h hl
    have hl0 := hl l (List.mem_cons_self _ _)
    have hstep := stream_Next_data J t l (ls.map (fun l => (l, none)) ++ tail)
      (by simpa using h) ((HasPrefix_iff _ _).2 hl0.1) hl0.2
    have hrest := ih { t with r := { pending := ls.map (fun l => (l, none)) ++ tail } } tail rfl
      (fun x hx => hl x (List.mem_cons_of_mem _ hx))
    simp [streamCalls, hstep, hrest, lineAnswer]

/-- C4: a line source yields n lines, each starting with "data:" and followed by
text that deserializes, and then end-of-input. Then for every k up to n the
first k calls of Next return, in line order, a nil error and the answer
assembled from the bytes of each line after its first 5 bytes, k lines are
consumed and the body is untouched; the call after the n-th returns no answer and
io.EOF itself, and closes the body. -/
theorem stream_answers_then_EOF (J : Json) (t : AppBuilderClientStreamIterator)
    (lines : List Bytes) (data : Bytes) (tail : List (Bytes × Option GoError))
    (hsrc : t.r.pending = lines.map (fun l => (l, none)) ++ (data, some .EOF) :: tail)
    (hlines : ∀ l ∈ lines,
      str "data:" <+: l ∧ (J.UnmarshalResponse (l.drop 5) {}).2 = none) :
    (∀ k, k ≤ lines.length →
      (streamCalls J k t).1 = (lines.take k).map (fun l =>
        NextResult.returned (some (AppBuilderClientAnswer.transform J {}
          (J.UnmarshalResponse (l.drop 5) {}).1)) none) ∧
      (streamCalls J k t).2.r.pending =
        (lines.drop k).map (fun l => (l, none)) ++ (data, some .EOF) :: tail ∧
      (streamCalls J k t).2.body = t.body) ∧
    ((streamCalls J lines.length t).2.Next J).1 = .returned none (some .EOF) ∧
    ((streamCalls J lines.length t).2.Next J).2.body.closeCalls = t.body.closeCalls + 1 ∧
    (streamCalls J (lines.length + 1) t).1 = lines.map (fun l =>
        NextResult.returned (some (AppBuilderClientAnswer.transform J {}
          (J.UnmarshalResponse (l.drop 5) {}).1)) none) ++ [.returned none (some .EOF)] := by
  have hall := streamCalls_data J lines t ((data, some .EOF) :: tail) hsrc hlines
  have hlast := stream_Next_EOF J { t with r := { pending := (data, some .EOF) :: tail } }
    data tail rfl
  refine ⟨?_, ?_, ?_, ?_⟩
  · intro k hk
    have hsplit : t.r.pending = (lines.take k).map (fun l => (l, none)) ++
        ((lines.drop k).map (fun l => (l, none)) ++ (data, some .EOF) :: tail) := by
      rw [hsrc, ← List.append_assoc, ← List.map_append, List.take_append_drop]
    have hk2 := streamCalls_data J (lines.take k) t _ hsplit
      (fun l hl => hlines l (List.mem_of_mem_take hl))
    rw [List.length_take, Nat.min_eq_left hk] at hk2
    rw [hk2]
    exact ⟨rfl, rfl, rfl⟩
  · rw [hall, hlast]
  · rw [hall, hlast]
    rfl
  · rw [streamCalls_add, streamCalls_one, hall, hlast]
    rfl

/-- Worked instance: two "data:" lines and then end-of-input give two answers and then
io.EOF. -/
theorem stream_answers_then_EOF_witness :
    (streamCalls
      (tableJson [(str " \x7b\"answer\":\"a1\"\x7d", { Answer := str "a1" }),
        (str " \x7b\"answer\":\"a2\"\x7d", { Answer := str "a2" })]) 3
      { requestID := str "r1",
        r := { pending := [(str "data: \x7b\"answer\":\"a1\"\x7d", none),
          (str "data: \x7b\"answer\":\"a2\"\x7d", none), ([], some .EOF)] },
        body := {} }).1 =
      [.returned (some { Answer := str "a1" }) none,
        .returned (some { Answer := str "a2" }) none,
        .returned none (some .EOF)] :=
  (stream_answers_then_EOF
    (tableJson [(str " \x7b\"answer\":\"a1\"\x7d", { Answer := str "a1" }),
      (str " \x7b\"answer\":\"a2\"\x7d", { Answer := str "a2" })])
    { requestID := str "r1",
      r := { pending := [(str "data: \x7b\"answer\":\"a1\"\x7d", none),
        (str "data: \x7b\"answer\":\"a2\"\x7d", none), ([], some .EOF)] },
      body := {} }
    [str "data: \x7b\"answer\":\"a1\"\x7d", str "data: \x7b\"answer\":\"a2\"\x7d"]
    [] [] rfl
    (by
      intro l hl
      simp only [List.mem_cons, List.mem_singleton, List.not_mem_nil, or_false] at hl
      rcases hl with rfl | rfl
      · exact ⟨(HasPrefix_iff _ _).1 (by decide), by rfl⟩
      · exact ⟨(HasPrefix_iff _ _).1 (by decide), by rfl⟩)).2.2.2

theorem stream_Next_eq (J : Json) (t : AppBuilderClientStreamIterator) :
    t.Next J = (streamResult J t.requestID t.r.ReadMessageLine.1,
      { t with
        r := t.r.ReadMessageLine.2,
        body := if isAnswerLine J t.r.ReadMessageLine.1 then t.body else t.body.Close }) := by
  obtain ⟨rid, ⟨pending⟩, body⟩ := t
  cases pending with
  | nil =>
    rw [stream_Next_drained J _ rfl]
    simp [sseReader.ReadMessageLine, streamResult, isAnswerLine]
  | cons o tail =>
    obtain ⟨data, err⟩ := o
    cases err with
    | some e =>
      cases e with
      | EOF =>
        rw [stream_Next_EOF J _ data tail rfl]
        simp [sseReader.ReadMessageLine, streamResult, isAnswerLine]
      | other text =>
        rw [stream_Next_failure J _ data text tail rfl]
        simp [sseReader.ReadMessageLine, streamResult, isAnswerLine]
    | none =>
      cases hp : HasPrefix data (str "data:") with
      | false =>
        rw [stream_Next_untagged J _ data tail rfl hp]
        simp [sseReader.ReadMessageLine, streamResult, isAnswerLine, hp]
      | true =>
        cases hu : (J.UnmarshalResponse (data.drop 5) {}).2 with
        | none =>
          rw [stream_Next_data J _ data tail rfl hp hu]
          simp [sseReader.ReadMessageLine, streamResult, isAnswerLine, hp, hu, lineAnswer]
        | some e =>
          rw [stream_Next_undecodable J _ data tail rfl hp e hu]
          simp [sseReader.ReadMessageLine, streamResult, isAnswerLine, hp, hu]

theorem streamResult_error_iff (J : Json) (rid : GoString) (o : Bytes × Option GoError) :
    (∃ e, streamResult J rid o = .returned none (some e)) ↔ isAnswerLine J o = false := by
  obtain ⟨data, err⟩ := o
  cases err with
  | some e => cases e <;> simp [streamResult, isAnswerLine]
  | none =>
    cases hp : HasPrefix data (str "data:") with
    | false => simp [streamResult, isAnswerLine, hp]
    | true =>
      cases hu : (J.UnmarshalResponse (data.drop 5) {}).2 with
      | none => simp [streamResult, isAnswerLine, hp, hu, lineAnswer]
      | some e => simp [streamResult, isAnswerLine, hp, hu]

theorem streamResult_ne_panicked (J : Json) (rid : GoString) (o : Bytes × Option GoError) :
    streamResult J rid o ≠ .panicked := by
  obtain ⟨data, err⟩ := o
  cases err with
  | some e => cases e <;> simp [streamResult]
  | none =>
    cases hp : HasPrefix data (str "data:") with
    | false => simp [streamResult, hp]
    | true =>
      cases hu : (J.UnmarshalResponse (data.drop 5) {}).2 with
      | none => simp [streamResult, hp, hu, lineAnswer]
      | some e => simp [streamResult, hp, hu]

/-- C5: for a line the line source returns that does not begin with "data:",
Next returns no answer and an error whose text is "requestID=", the request id,
", body=" and the whole line, so it contains the request id and the complete raw
line; the body is closed once by the call, and the call does not panic. -/
theorem stream_untagged_line_error (J : Json) (t : AppBuilderClientStreamIterator)
    (line : Bytes) (tail : List (Bytes × Option GoError))
    (h : t.r.pending = (line, none) :: tail) (hp : ¬ str "data:" <+: line) :
    ∃ e, (t.Next J).1 = .returned none (some e) ∧
      e.Error = str "requestID=" ++ t.requestID ++ str ", body=" ++ line ∧
      t.requestID <:+: e.Error ∧ line <:+: e.Error ∧
      (t.Next J).2.body.closeCalls = t.body.closeCalls + 1 ∧
      (t.Next J).1 ≠ .panicked := by
  have hp2 : HasPrefix line (str "data:") = false := by
    cases hb : HasPrefix line (str "data:") with
    | false => rfl
    | true => exact absurd ((HasPrefix_iff _ _).1 hb) hp
  refine ⟨errorfBody t.requestID line, ?_, rfl, ?_, ?_, ?_, ?_⟩
  · rw [stream_Next_untagged J t line tail h hp2]
  · exact ⟨str "requestID=", str ", body=" ++ line, by simp [errorfBody, GoError.Error]⟩
  · exact ⟨str "requestID=" ++ t.requestID ++ str ", body=", [],
      by simp [errorfBody, GoError.Error]⟩
  · rw [stream_Next_untagged J t line tail h hp2]
    rfl
  · rw [stream_Next_untagged J t line tail h hp2]
    simp

/-- Worked instance: the line "internal error" on a stream with request id "req-1". -/
theorem stream_untagged_line_error_witness :
    ∃ e, (AppBuilderClientStreamIterator.Next (tableJson [])
        { requestID := str "req-1", r := { pending := [(str "internal error", none)] },
          body := {} }).1 = .returned none (some e) ∧
      e.Error = str "requestID=req-1, body=internal error" ∧
      str "req-1" <:+: e.Error ∧ str "internal error" <:+: e.Error := by
  obtain ⟨e, hres, htext, hid, hline, -, -⟩ := stream_untagged_line_error (tableJson [])
    { requestID := str "req-1", r := { pending := [(str "internal error", none)] },
      body := {} }
    (str "internal error") [] rfl
    (fun hpre => absurd ((HasPrefix_iff _ _).2 hpre) (by decide))
  refine ⟨e, hres, ?_, hid, hline⟩
  rw [htext]
  decide

/-- C7, as stated, fails: on a line source holding "internal error" and then
"data:{}", the first call of Next returns an error and the second call returns
an answer. -/
theorem stream_answer_after_error :
    ∃ e a,
      (exampleStream.Next (tableJson [(str "\x7b\x7d", {})])).1 = .returned none (some e) ∧
      ((exampleStream.Next (tableJson [(str "\x7b\x7d", {})])).2.Next
        (tableJson [(str "\x7b\x7d", {})])).1 = .returned (some a) none :=
  ⟨errorfBody (str "r1") (str "internal error"), {}, rfl, rfl⟩

theorem isAnswerLine_ReadMessageLine (J : Json) (r : sseReader)
    (h : ∀ o ∈ r.pending, isAnswerLine J o = false) :
    isAnswerLine J r.ReadMessageLine.1 = false ∧
      ∀ o ∈ r.ReadMessageLine.2.pending, isAnswerLine J o = false := by
  obtain ⟨pending⟩ := r
  cases pending with
  | nil => simp [sseReader.ReadMessageLine, isAnswerLine]
  | cons o tail =>
    simp only [sseReader.ReadMessageLine]
    exact ⟨h o (List.mem_cons_self _ _), fun x hx => h x (List.mem_cons_of_mem _ hx)⟩

theorem streamCalls_all_errors (J : Json) :
    ∀ (k : Nat) (t : AppBuilderClientStreamIterator),
      (∀ o ∈ t.r.pending, isAnswerLine J o = false) →
      ∀ res ∈ (streamCalls J k t).1, ∃ e, res = .returned none (some e) := by
  intro k
  induction k with
  | zero => intro t _ res hres; simp [streamCalls] at hres
  | succ k ih =>
    intro t h res hres
    have hstep := isAnswerLine_ReadMessageLine J t.r h
    simp only [streamCalls, List.mem_cons] at hres
    rcases hres with hres | hres
    · rw [hres, stream_Next_eq]
      exact (streamResult_error_iff J _ _).2 hstep.1
    · refine ih (t.Next J).2 ?_ res hres
      rw [stream_Next_eq]
      exact hstep.2

/-- C7, amended: the stream iterator keeps no terminal state. A call of Next that
returns a non-nil error has closed the body; the call after it returns no answer
and a non-nil error exactly when the outcome the line source then gives is not a
well-formed "data:" line; and when the line source holds no well-formed "data:"
line any more, every later call returns no answer and a non-nil error. -/
theorem stream_calls_after_error (J : Json) (t : AppBuilderClientStreamIterator)
    (e : GoError) (herr : (t.Next J).1 = .returned none (some e)) :
    (t.Next J).2.body.closeCalls = t.body.closeCalls + 1 ∧
    ((∃ e2, ((t.Next J).2.Next J).1 = .returned none (some e2)) ↔
      isAnswerLine J (t.Next J).2.r.ReadMessageLine.1 = false) ∧
    ((∀ o ∈ (t.Next J).2.r.pending, isAnswerLine J o = false) →
      ∀ k, ∀ res ∈ (streamCalls J k (t.Next J).2).1, ∃ e2, res = .returned none (some e2)) := by
  refine ⟨?_, ?_, fun h k => streamCalls_all_errors J k _ h⟩
  · have hline : isAnswerLine J t.r.ReadMessageLine.1 = false := by
      apply (streamResult_error_iff J t.requestID _).1
      rw [stream_Next_eq] at herr
      exact ⟨e, herr⟩
    rw [stream_Next_eq]
    simp [hline, ReadCloser.Close]
  · rw [stream_Next_eq J (t.Next J).2]
    exact streamResult_error_iff J _ _

/-- Worked instance: after the error on "internal error" the line source holds only
"still broken"; the body has been closed and the next three calls all return errors. -/
theorem stream_calls_after_error_witness :
    (AppBuilderClientStreamIterator.Next (tableJson [(str "\x7b\x7d", {})])
      { requestID := str "r1",
        r := { pending := [(str "internal error", none), (str "still broken", none)] },
        body := {} }).2.body.closeCalls = 1 ∧
    ∀ res ∈ (streamCalls (tableJson [(str "\x7b\x7d", {})]) 3
        (AppBuilderClientStreamIterator.Next (tableJson [(str "\x7b\x7d", {})])
          { requestID := str "r1",
            r := { pending := [(str "internal error", none), (str "still broken", none)] },
            body := {} }).2).1,
      ∃ e2, res = .returned none (some e2) :=
  ⟨(stream_calls_after_error (tableJson [(str "\x7b\x7d", {})])
      { requestID := str "r1",
        r := { pending := [(str "internal error", none), (str "still broken", none)] },
        body := {} }
      (errorfBody (str "r1") (str "internal error")) rfl).1,
    (stream_calls_after_error (tableJson [(str "\x7b\x7d", {})])
      { requestID := str "r1",
        r := { pending := [(str "internal error", none), (str "still broken", none)] },
        body := {} }
      (errorfBody (str "r1") (str "internal error")) rfl).2.2
      (by
        intro o ho
        have hpending : (AppBuilderClientStreamIterator.Next (tableJson [(str "\x7b\x7d", {})])
            { requestID := str "r1",
              r := { pending := [(str "internal error", none), (str "still broken", none)] },
              body := {} }).2.r.pending = [(str "still broken", none)] := rfl
        rw [hpending, List.mem_singleton] at ho
        rw [ho]
        rfl) 3⟩

/-- C9: every non-nil error the two iterators return, other than io.EOF, has a
text that begins with "requestID=" followed by the iterator's request id. The
stream iterator returns io.EOF exactly when the line source signalled io.EOF; the
once iterator never returns io.EOF. -/
theorem errors_tagged_with_request_id (J : Json) (ts : AppBuilderClientStreamIterator)
    (tn : AppBuilderClientOnceIterator) :
    (∀ a e, (ts.Next J).1 = .returned a (some e) →
      (e = .EOF ↔ ts.r.ReadMessageLine.1.2 = some .EOF) ∧
      (e ≠ .EOF → str "requestID=" ++ ts.requestID <+: e.Error)) ∧
    (∀ a e, (tn.Next J).1 = .returned a (some e) →
      e ≠ .EOF ∧ str "requestID=" ++ tn.requestID <+: e.Error) := by
  constructor
  · intro a e h
    rw [stream_Next_eq] at h
    simp only at h
    generalize ts.r.ReadMessageLine.1 = o at h
    obtain ⟨data, err⟩ := o
    cases err with
    | some e1 =>
      cases e1 with
      | EOF =>
        simp only [streamResult, NextResult.returned.injEq, Option.some.injEq] at h
        simp [← h.2]
      | other text =>
        simp only [streamResult, NextResult.returned.injEq, Option.some.injEq] at h
        simp [← h.2, errorfErr, GoError.Error, List.append_assoc]
    | none =>
      cases hp : HasPrefix data (str "data:") with
      | false =>
        simp only [streamResult, hp, Bool.false_eq_true, if_false,
          NextResult.returned.injEq, Option.some.injEq] at h
        simp [← h.2, errorfBody, GoError.Error, List.append_assoc]
      | true =>
        cases hu : (J.UnmarshalResponse (data.drop 5) {}).2 with
        | none => simp [streamResult, hp, hu, lineAnswer] at h
        | some e1 =>
          simp only [streamResult, hp, hu, if_true,
            NextResult.returned.injEq, Option.some.injEq] at h
          simp [← h.2, errorfErr, GoError.Error, List.append_assoc]
  · intro a e h
    unfold AppBuilderClientOnceIterator.Next at h
    generalize (ioReadAll tn.body).1 = o at h
    obtain ⟨data, err⟩ := o
    cases err with
    | some e1 =>
      simp only [NextResult.returned.injEq, Option.some.injEq] at h
      simp [← h.2, errorfErr, GoError.Error, List.append_assoc]
    | none =>
      cases hu : (J.UnmarshalResponse data {}).2 with
      | none => simp [hu] at h
      | some e1 =>
        simp only [hu, NextResult.returned.injEq, Option.some.injEq] at h
        simp [← h.2, errorfErr, GoError.Error, List.append_assoc]

/-- Worked instance: the error for the line "internal error" and the error for a
failed read of the body both start with the request id tag. -/
theorem errors_tagged_with_request_id_witness :
    (str "requestID=" ++ exampleStream.requestID
      <+: (errorfBody (str "r1") (str "internal error")).Error) ∧
    (str "requestID=" ++ exampleFailingOnce.requestID
      <+: (errorfErr (str "r2") (.other (str "unexpected EOF"))).Error) :=
  ⟨((errors_tagged_with_request_id (tableJson []) exampleStream exampleFailingOnce).1 none
      (errorfBody (str "r1") (str "internal error")) rfl).2 (by decide),
    ((errors_tagged_with_request_id (tableJson []) exampleStream exampleFailingOnce).2 none
      (errorfErr (str "r2") (.other (str "unexpected EOF"))) rfl).2⟩

/-! ## Theorems: the once iterator -/

theorem once_Next_eq (J : Json) (t : AppBuilderClientOnceIterator) :
    t.Next J = (onceResult J t.requestID (ioReadAll t.body).1,
      { t with
        body := if (ioReadAll t.body).1.2.isSome then (ioReadAll t.body).2
          else (ioReadAll t.body).2.Close }) := by
  unfold AppBuilderClientOnceIterator.Next
  generalize (ioReadAll t.body).1 = o
  obtain ⟨data, err⟩ := o
  cases err with
  | some e => simp [onceResult]
  | none =>
    cases hu : (J.UnmarshalResponse data {}).2 with
    | none => simp [onceResult, hu]
    | some e => simp [onceResult, hu]

theorem onceResult_error_iff (J : Json) (rid : GoString) (o : Bytes × Option GoError) :
    (∃ e, onceResult J rid o = .returned none (some e)) ↔ isAnswerBody J o = false := by
  obtain ⟨data, err⟩ := o
  cases err with
  | some e => simp [onceResult, isAnswerBody]
  | none =>
    cases hu : (J.UnmarshalResponse data {}).2 with
    | none => simp [onceResult, isAnswerBody, hu]
    | some e => simp [onceResult, isAnswerBody, hu]

theorem ioReadAll_readCalls (b : ReadCloser) :
    (ioReadAll b).2.readCalls = b.readCalls + 1 ∧ (ioReadAll b).2.closeCalls = b.closeCalls := by
  unfold ioReadAll
  cases b.pending <;> simp

/-- How one call of the once iterator's Next changes the counters of the body:
one more read; one more close unless the read failed. -/
theorem once_Next_counters (J : Json) (t : AppBuilderClientOnceIterator) :
    (t.Next J).2.body.readCalls = t.body.readCalls + 1 ∧
    (t.Next J).2.body.closeCalls =
      if (ioReadAll t.body).1.2.isSome then t.body.closeCalls else t.body.closeCalls + 1 := by
  rw [once_Next_eq]
  have h := ioReadAll_readCalls t.body
  cases hs : (ioReadAll t.body).1.2.isSome <;> simp [hs, h, ReadCloser.Close]

/-- C6, the code at the failing input: when the read of the body fails, Next
returns the tagged error and the body has been read once but not closed. -/
theorem once_read_failure_leaves_body_open (J : Json) :
    (exampleFailingOnce.Next J).1 =
      .returned none (some (.other (str "requestID=r2, err=unexpected EOF"))) ∧
    (exampleFailingOnce.Next J).2.body.readCalls = 1 ∧
    (exampleFailingOnce.Next J).2.body.closeCalls = 0 := by
  refine ⟨?_, rfl, rfl⟩
  have : (exampleFailingOnce.Next J).1 =
      .returned none (some (errorfErr (str "r2") (.other (str "unexpected EOF")))) := rfl
  rw [this]
  have htext : errorfErr (str "r2") (.other (str "unexpected EOF")) =
      .other (str "requestID=r2, err=unexpected EOF") := by decide
  rw [htext]

/-- C8, as stated, fails: on the witness body the first call of Next returns the
answer and closes the body, and the second call reads the released body again
(the body has then been read twice). -/
theorem once_second_call_reads_released_body :
    (witnessOnce.Next (tableJson [(witnessBody, witnessResponse)])).1 =
      .returned
        (some { MessageID := str "m1", Answer := str "hi", Events := [], RequestID := str "r1" })
        none ∧
    (witnessOnce.Next (tableJson [(witnessBody, witnessResponse)])).2.body.closeCalls = 1 ∧
    (witnessOnce.Next (tableJson [(witnessBody, witnessResponse)])).2.body.readCalls = 1 ∧
    ((witnessOnce.Next (tableJson [(witnessBody, witnessResponse)])).2.Next
      (tableJson [(witnessBody, witnessResponse)])).2.body.readCalls = 2 :=
  ⟨rfl, rfl, rfl, rfl⟩

theorem isAnswerBody_ioReadAll (J : Json) (b : ReadCloser)
    (h : ∀ o ∈ b.pending, isAnswerBody J o = false)
    (hempty : isAnswerBody J ([], none) = false) :
    isAnswerBody J (ioReadAll b).1 = false ∧
      ∀ o ∈ (ioReadAll b).2.pending, isAnswerBody J o = false := by
  obtain ⟨pending, reads, closes⟩ := b
  cases pending with
  | nil => simpa [ioReadAll] using hempty
  | cons o tail =>
    simp only [ioReadAll]
    exact ⟨h o (List.mem_cons_self _ _), fun x hx => h x (List.mem_cons_of_mem _ hx)⟩

theorem once_Next_pending (J : Json) (t : AppBuilderClientOnceIterator) :
    (t.Next J).2.body.pending = (ioReadAll t.body).2.pending := by
  rw [once_Next_eq]
  cases (ioReadAll t.body).1.2.isSome <;> simp [ReadCloser.Close]

theorem onceCalls_all_errors (J : Json) (hempty : isAnswerBody J ([], none) = false) :
    ∀ (k : Nat) (t : AppBuilderClientOnceIterator),
      (∀ o ∈ t.body.pending, isAnswerBody J o = false) →
      (∀ res ∈ (onceCalls J k t).1, ∃ e, res = .returned none (some e)) ∧
      (onceCalls J k t).2.body.readCalls = t.body.readCalls + k := by
  intro k
  induction k with
  | zero => intro t _; simp [onceCalls]
  | succ k ih =>
    intro t h
    have hstep := isAnswerBody_ioReadAll J t.body h hempty
    have hrest := ih (t.Next J).2 (by rw [once_Next_pending]; exact hstep.2)
    constructor
    · intro res hres
      simp only [onceCalls, List.mem_cons] at hres
      rcases hres with hres | hres
      · rw [hres, once_Next_eq]
        exact (onceResult_error_iff J _ _).2 hstep.1
      · exact hrest.1 res hres
    · simp only [onceCalls]
      rw [hrest.2, (once_Next_counters J t).1]
      omega

/-- C8, amended: the once iterator keeps no Done state. Every call after the
first reads the released body again, once per call; when no later read of the
body gives bytes that deserialize (each later read fails or gives bytes that do
not deserialize, in particular no bytes from a drained body), every call after
the first returns no answer and a non-nil error, so at most one answer is ever
returned. On the witness body the first call returns the answer with Answer
"hi", MessageID "m1" and no events, and closes the body. -/
theorem once_calls_after_first (J : Json) (t : AppBuilderClientOnceIterator)
    (hlater : ∀ o ∈ (t.Next J).2.body.pending, isAnswerBody J o = false)
    (hempty : isAnswerBody J ([], none) = false) :
    (∀ k, (onceCalls J (k + 1) t).1 = (t.Next J).1 :: (onceCalls J k (t.Next J).2).1 ∧
      (∀ res ∈ (onceCalls J k (t.Next J).2).1, ∃ e, res = .returned none (some e)) ∧
      (onceCalls J (k + 1) t).2.body.readCalls = t.body.readCalls + (k + 1)) ∧
    ((ioReadAll t.body).1 = (witnessBody, none) →
      J.UnmarshalResponse witnessBody {} = (witnessResponse, none) →
      (t.Next J).1 = .returned
        (some { MessageID := str "m1", Answer := str "hi", Events := [], RequestID := str "r1" })
        none ∧
      (t.Next J).2.body.closeCalls = t.body.closeCalls + 1) := by
  constructor
  · intro k
    have h := onceCalls_all_errors J hempty k (t.Next J).2 hlater
    refine ⟨by simp [onceCalls], h.1, ?_⟩
    simp only [onceCalls]
    rw [h.2, (once_Next_counters J t).1]
    omega
  · intro hread hdec
    constructor
    · rw [once_Next_eq, hread]
      simp [onceResult, hdec, transform_eq, witnessResponse]
    · rw [(once_Next_counters J t).2, hread]
      simp

/-- Worked instance on `witnessOnce`: three calls read the body three times, and the
two calls after the first return errors. -/
theorem once_calls_after_first_witness :
    (onceCalls (tableJson [(witnessBody, witnessResponse)]) 3 witnessOnce).1 =
      (witnessOnce.Next (tableJson [(witnessBody, witnessResponse)])).1 ::
        (onceCalls (tableJson [(witnessBody, witnessResponse)]) 2
          (witnessOnce.Next (tableJson [(witnessBody, witnessResponse)])).2).1 ∧
    (∀ res ∈ (onceCalls (tableJson [(witnessBody, witnessResponse)]) 2
        (witnessOnce.Next (tableJson [(witnessBody, witnessResponse)])).2).1,
      ∃ e, res = .returned none (some e)) ∧
    (onceCalls (tableJson [(witnessBody, witnessResponse)]) 3 witnessOnce).2.body.readCalls
      = witnessOnce.body.readCalls + 3 :=
  (once_calls_after_first (tableJson [(witnessBody, witnessResponse)]) witnessOnce
    (by
      intro o ho
      have hpending : (witnessOnce.Next
          (tableJson [(witnessBody, witnessResponse)])).2.body.pending = [] := rfl
      rw [hpending] at ho
      exact absurd ho (List.not_mem_nil o))
    rfl).1 2

end AppBuilder
